import Mathlib

/-!
Verification of the grid-simulation core of a block-puzzle game
(`src/Block_Puzzle.py`): placement validity, placement mutation,
full-line detection and clearing with per-column gravity collapse,
reachability ("any move exists"), scoring, and the game-over guard of
the main loop.

The board in the source is `grid[x][y]`, a list of `GRID_COLS` columns,
each a list of `GRID_ROWS` cell values (0 = empty, nonzero = color tag).
We embed the grid as a function `Nat → Nat → Nat`; only indices
`x < GRID_COLS`, `y < GRID_ROWS` correspond to real cells.
-/

namespace BlockPuzzle

/-- `GRID_COLS = 10` from the source configuration. -/
def GRID_COLS : Nat := 10

/-- `GRID_ROWS = 10` from the source configuration. -/
def GRID_ROWS : Nat := 10

/-- `SCORE_PER_BLOCK = 10` from the source configuration. -/
def SCORE_PER_BLOCK : Nat := 10

/-- `ROWCOL_CLEAR_BONUS = 50` from the source configuration. -/
def ROWCOL_CLEAR_BONUS : Nat := 50

/-- A board: `g x y` is the value of cell `(x, y)` (column `x`, row `y`). -/
abbrev Grid := Nat → Nat → Nat

/-- A piece shape: list of rows of 0/1 values, as in the `PIECES` catalog. -/
abbrev Piece := List (List Nat)

/-- Row `y` is full: every cell `grid[x][y]` for `x` in `range(GRID_COLS)`
is nonzero (the row scan of `clear_full_lines`, lines 230-236). -/
def rowFull (g : Grid) (y : Nat) : Bool :=
  (List.range GRID_COLS).all fun x => g x y != 0

/-- Column `x` is full: every cell `grid[x][y]` for `y` in `range(GRID_ROWS)`
is nonzero (the column scan of `clear_full_lines`, lines 242-249). -/
def colFull (g : Grid) (x : Nat) : Bool :=
  (List.range GRID_ROWS).all fun y => g x y != 0

/-- `rows_to_clear` of `clear_full_lines`: the full rows of the grid. -/
def rows_to_clear (g : Grid) : List Nat :=
  (List.range GRID_ROWS).filter fun y => rowFull g y

/-- `cols_to_clear` of `clear_full_lines`: the full columns of the grid
at the moment the column scan runs. -/
def cols_to_clear (g : Grid) : List Nat :=
  (List.range GRID_COLS).filter fun x => colFull g x

/-- Zero out every full row (lines 237-240 of `clear_full_lines`). -/
def clearRows (g : Grid) : Grid :=
  fun x y => if rowFull g y then 0 else g x y

/-- Zero out every full column (lines 250-253 of `clear_full_lines`). -/
def clearCols (g : Grid) : Grid :=
  fun x y => if colFull g x then 0 else g x y

/-- The list `[self.grid[x][y] for y in range(GRID_ROWS)]`: column `x`
read top to bottom. -/
def colList (g : Grid) (x : Nat) : List Nat :=
  (List.range GRID_ROWS).map fun y => g x y

/-- `newcol` of the gravity step (line 258): the nonzero cells of column
`x` in order, bottom-justified with zeros backfilled on top. -/
def newcol (g : Grid) (x : Nat) : List Nat :=
  let col := (colList g x).filter fun v => v != 0
  List.replicate (GRID_ROWS - col.length) 0 ++ col

/-- The gravity collapse (lines 255-260): every column is replaced by its
`newcol`. -/
def collapse (g : Grid) : Grid :=
  fun x y => (newcol g x).getD y 0

/-- `clear_full_lines` (lines 225-261): count and zero the full rows of
the incoming grid; then count and zero the full columns of the
row-cleared grid (the column scan runs after the rows were zeroed); then,
only if anything was cleared, apply the gravity collapse. Returns the
cleared-line count and the resulting grid. -/
def clear_full_lines (g : Grid) : Nat × Grid :=
  let clearedRows := (rows_to_clear g).length
  let g1 := clearRows g
  let clearedCols := (cols_to_clear g1).length
  let g2 := clearCols g1
  let cleared := clearedRows + clearedCols
  (cleared, if cleared > 0 then collapse g2 else g2)

/-- No row of the grid is full. -/
def noRowFull (g : Grid) : Bool :=
  (List.range GRID_ROWS).all fun y => !rowFull g y

/-- No column of the grid is full. -/
def noColFull (g : Grid) : Bool :=
  (List.range GRID_COLS).all fun x => !colFull g x

/-- `can_place_piece` (lines 156-167): the anchor is an integer pair; the
piece's `h × w` bounding box must lie inside the grid, and every occupied
cell of the piece must map to an empty board cell. Cell `(px, py)` of the
piece is `piece[py][px]`; occupied means nonzero (Python truthiness). -/
def can_place_piece (g : Grid) (piece : Piece) (drop_x drop_y : Int) : Bool :=
  let h : Nat := piece.length
  let w : Nat := (piece.headD []).length
  if drop_x < 0 || drop_y < 0 || drop_x + (w : Int) > (GRID_COLS : Int)
      || drop_y + (h : Int) > (GRID_ROWS : Int) then
    false
  else
    (List.range w).all fun px =>
      (List.range h).all fun py =>
        if (piece.getD py []).getD px 0 != 0 then
          g (drop_x.toNat + px) (drop_y.toNat + py) == 0
        else
          true

/-- The spec's wording for `canPlace` (refinement target, NOT from the
source): the shape's bounding box lies fully within grid bounds at the
anchor, and every occupied cell of the shape maps to a board cell whose
value is 0. -/
def canPlaceSpec (g : Grid) (piece : Piece) (drop_x drop_y : Int) : Prop :=
  (0 ≤ drop_x ∧ 0 ≤ drop_y
    ∧ drop_x + ((piece.headD []).length : Int) ≤ (GRID_COLS : Int)
    ∧ drop_y + (piece.length : Int) ≤ (GRID_ROWS : Int))
  ∧ ∀ px < (piece.headD []).length, ∀ py < piece.length,
      (piece.getD py []).getD px 0 ≠ 0 →
        g (drop_x.toNat + px) (drop_y.toNat + py) = 0

/-- Does the write loop of `place_piece` (lines 196-199) write cell
`(x, y)` when the piece is anchored at `(gx, gy)`? -/
def coversCell (piece : Piece) (gx gy x y : Nat) : Bool :=
  (List.range (piece.headD []).length).any fun px =>
    (List.range piece.length).any fun py =>
      (piece.getD py []).getD px 0 != 0 && x == gx + px && y == gy + py

/-- The grid after the write loop of `place_piece`: every occupied cell of
the piece receives `color_id`, all other cells keep their value. -/
def writePiece (g : Grid) (piece : Piece) (gx gy color_id : Nat) : Grid :=
  fun x y => if coversCell piece gx gy x y then color_id else g x y

/-- `placed_blocks` counted by the write loop of `place_piece`: the number
of occupied cells of the piece. -/
def placed_blocks (piece : Piece) : Nat :=
  ((List.range piece.length).map fun py =>
    ((List.range (piece.headD []).length).filter fun px =>
      (piece.getD py []).getD px 0 != 0).length).sum

/-- The mutable game state of class `Game` (particles are rendering-only
and omitted). -/
structure Game where
  grid : Grid
  score : Nat
  highscore : Nat
  pieces : List Piece
  piece_colors : List Nat
  used : List Bool
  game_over : Bool

/-- `spawn_new_triplet` (lines 151-154), with the randomly sampled pieces
and colors passed in explicitly (the source draws them from `random`;
the spec injects the sampler). -/
def spawn_new_triplet (s : Game) (newPieces : List Piece)
    (newColors : List Nat) : Game :=
  { s with pieces := newPieces, piece_colors := newColors,
           used := [false, false, false] }

/-- `place_piece` (lines 188-223), with the spawn sampler injected as
`newPieces`/`newColors`. Returns the Python boolean result together with
the updated state. Rejections return the state unchanged; on success the
piece is written, marked used, the placement score is added, full lines
are cleared (with clear bonus when any line cleared), a new triplet is
spawned when all three pieces are used, and the highscore is raised when
surpassed. -/
def place_piece (s : Game) (newPieces : List Piece) (newColors : List Nat)
    (index gx gy : Int) : Bool × Game :=
  if index < 0 || index > 2 || s.used.getD index.toNat false then
    (false, s)
  else
    let piece := s.pieces.getD index.toNat []
    if !can_place_piece s.grid piece gx gy then
      (false, s)
    else
      let color_id := s.piece_colors.getD index.toNat 0 + 1
      let grid1 := writePiece s.grid piece gx.toNat gy.toNat color_id
      let used1 := s.used.set index.toNat true
      let score1 := s.score + placed_blocks piece * SCORE_PER_BLOCK
      let res := clear_full_lines grid1
      let score2 := if res.1 > 0 then score1 + ROWCOL_CLEAR_BONUS * res.1
                    else score1
      let s1 : Game := { s with grid := res.2, score := score2, used := used1 }
      let s2 := if s1.used.all id then spawn_new_triplet s1 newPieces newColors
                else s1
      let s3 := if s2.score > s2.highscore then { s2 with highscore := s2.score }
                else s2
      (true, s3)

/-- `any_valid_for_index` (lines 169-179): a used piece never has a valid
placement; otherwise search anchors `gx in range(GRID_COLS - w + 1)`,
`gy in range(GRID_ROWS - h + 1)` (Python `range` of a negative bound is
empty, hence the `Int.toNat`). -/
def any_valid_for_index (s : Game) (index : Nat) : Bool :=
  if s.used.getD index false then
    false
  else
    let piece := s.pieces.getD index []
    let h : Nat := piece.length
    let w : Nat := (piece.headD []).length
    (List.range ((GRID_COLS : Int) - (w : Int) + 1).toNat).any fun gx =>
      (List.range ((GRID_ROWS : Int) - (h : Int) + 1).toNat).any fun gy =>
        can_place_piece s.grid piece (gx : Int) (gy : Int)

/-- `any_move_exists` (lines 181-186): some index 0, 1, 2 has a valid
placement. -/
def any_move_exists (s : Game) : Bool :=
  (List.range 3).any fun i => any_valid_for_index s i

/-- The placement part of the click handler (`main`, lines 470-475): the
first piece that is unused and fits at the clicked cell is placed. -/
def place_first_fit (s : Game) (newPieces : List Piece)
    (newColors : List Nat) (gx gy : Nat) : Game :=
  match (List.range 3).find? (fun i =>
      !s.used.getD i false
        && can_place_piece s.grid (s.pieces.getD i []) (gx : Int) (gy : Int)) with
  | some i => (place_piece s newPieces newColors (i : Int) (gx : Int) (gy : Int)).2
  | none => s

/-- The left-click handler of the play state (`main`, lines 463-478):
when `game_over` is set the whole branch is skipped and nothing happens;
otherwise, if the click maps to a grid cell (`screen_to_grid` result,
modelled as `Option`), the first fitting piece is placed and the
game-over condition is re-evaluated. -/
def handle_click (s : Game) (newPieces : List Piece) (newColors : List Nat)
    (cell : Option (Nat × Nat)) : Game :=
  if s.game_over then
    s
  else
    match cell with
    | none => s
    | some (gx, gy) =>
      let s1 := place_first_fit s newPieces newColors gx gy
      if !any_move_exists s1 then { s1 with game_over := true } else s1

/-! ## Concrete boards and states used in counterexamples and witnesses -/

/-- A board whose row 0 and column 0 are full and intersect at `(0, 0)`;
no other row or column is full. -/
def crossGrid : Grid := fun x y => if x = 0 ∨ y = 0 then 1 else 0

/-- `crossGrid` with the single cell `(0, 0)` still empty: one placement
of the 1-cell piece at `(0, 0)` completes both the row and the column. -/
def preCross : Grid :=
  fun x y => if (x = 0 ∨ y = 0) ∧ ¬(x = 0 ∧ y = 0) then 1 else 0

/-- A board with row 0 full and, in every column, exactly one more
occupied cell spread over rows 1 and 2 so that no other line is full.
Clearing row 0 triggers the gravity collapse, which drops one cell per
column into row 9, leaving row 9 full. -/
def gravGrid : Grid := fun x y =>
  if y = 0 then 1
  else if y = 1 ∧ x % 2 = 0 then 1
  else if y = 2 ∧ x % 2 = 1 then 1
  else 0

/-- The all-empty board. -/
def zeroGrid : Grid := fun _ _ => 0

/-- A fresh game on an empty board whose first pending piece is the
2x2 square (4 occupied cells). -/
def wGame : Game where
  grid := zeroGrid
  score := 0
  highscore := 0
  pieces := [[[1, 1], [1, 1]], [[1]], [[1]]]
  piece_colors := [0, 0, 0]
  used := [false, false, false]
  game_over := false

/-- `wGame` with the game-over flag set. -/
def wGameOver : Game := { wGame with game_over := true }

/-! ## Helper lemmas -/

lemma all_congr_mem {α : Type} (p q : α → Bool) :
    ∀ l : List α, (∀ a ∈ l, p a = q a) → l.all p = l.all q
  | [], _ => rfl
  | b :: bs, h => by
    rw [List.all_cons, List.all_cons, h b (List.mem_cons_self b bs),
      all_congr_mem p q bs (fun a ha => h a (List.mem_cons_of_mem b ha))]

lemma rowFull_iff (g : Grid) (y : Nat) :
    rowFull g y = true ↔ ∀ x < GRID_COLS, g x y ≠ 0 := by
  simp [rowFull, List.all_eq_true, List.mem_range]

lemma colFull_iff (g : Grid) (x : Nat) :
    colFull g x = true ↔ ∀ y < GRID_ROWS, g x y ≠ 0 := by
  simp [colFull, List.all_eq_true, List.mem_range]

lemma noRowFull_iff (g : Grid) :
    noRowFull g = true ↔ ∀ y < GRID_ROWS, rowFull g y = false := by
  simp [noRowFull, List.all_eq_true, List.mem_range]

lemma noColFull_iff (g : Grid) :
    noColFull g = true ↔ ∀ x < GRID_COLS, colFull g x = false := by
  simp [noColFull, List.all_eq_true, List.mem_range]

/-- After the column-clearing pass, no column is full. -/
lemma colFull_clearCols (g : Grid) (x : Nat) :
    colFull (clearCols g) x = false := by
  rw [Bool.eq_false_iff]
  intro hfull
  rw [colFull_iff] at hfull
  by_cases hx : colFull g x = true
  · have h0 := hfull 0 (by norm_num [GRID_ROWS])
    simp [clearCols, hx] at h0
  · rw [Bool.not_eq_true] at hx
    apply absurd _ (Bool.eq_false_iff.mp hx)
    rw [colFull_iff]
    intro y hy
    have := hfull y hy
    simpa [clearCols, hx] using this

lemma length_colList (g : Grid) (x : Nat) : (colList g x).length = GRID_ROWS := by
  simp [colList]

lemma kept_length_le (g : Grid) (x : Nat) :
    ((colList g x).filter fun v => v != 0).length ≤ GRID_ROWS := by
  calc ((colList g x).filter fun v => v != 0).length
      ≤ (colList g x).length := List.length_filter_le _ _
    _ = GRID_ROWS := length_colList g x

lemma length_newcol (g : Grid) (x : Nat) : (newcol g x).length = GRID_ROWS := by
  have h := kept_length_le g x
  simp only [newcol, List.length_append, List.length_replicate, length_colList]
  omega

lemma getD_zero_replicate_append (n : Nat) (l : List Nat) (hn : 0 < n) :
    (List.replicate n 0 ++ l).getD 0 0 = 0 := by
  cases n with
  | zero => omega
  | succ m => rfl

/-- The gravity collapse cannot make a non-full column full. -/
lemma colFull_collapse (g : Grid) (x : Nat) (h : colFull g x = false) :
    colFull (collapse g) x = false := by
  have hself : ¬ ∀ y < GRID_ROWS, g x y ≠ 0 := by
    intro hall
    rw [(colFull_iff g x).mpr hall] at h
    exact absurd h (by simp)
  push_neg at hself
  obtain ⟨y, hy, hy0⟩ := hself
  have hmem : g x y ∈ colList g x := by
    simp only [colList, List.mem_map]
    exact ⟨y, by simp [List.mem_range, hy], rfl⟩
  have hklt : ((colList g x).filter fun v => v != 0).length < GRID_ROWS := by
    rw [← length_colList g x]
    apply List.length_filter_lt_length_iff_exists.mpr
    exact ⟨g x y, hmem, by simp [hy0]⟩
  rw [Bool.eq_false_iff]
  intro hfull
  rw [colFull_iff] at hfull
  have h0 := hfull 0 (by norm_num [GRID_ROWS])
  apply h0
  show (newcol g x).getD 0 0 = 0
  simp only [newcol]
  exact getD_zero_replicate_append _ _ (by omega)

/-- After `clear_full_lines`, no column of the resulting grid is full. -/
lemma colFull_clear_full_lines (g : Grid) (x : Nat) :
    colFull (clear_full_lines g).2 x = false := by
  simp only [clear_full_lines]
  split
  · exact colFull_collapse _ x (colFull_clearCols _ x)
  · exact colFull_clearCols _ x

lemma noColFull_clear_full_lines (g : Grid) :
    noColFull (clear_full_lines g).2 = true := by
  rw [noColFull_iff]
  intro x _
  exact colFull_clear_full_lines g x

/-- When no row of `g` is full, the row-clearing pass leaves every real
cell unchanged. -/
lemma clearRows_eq_of_noRowFull (g : Grid) (h : noRowFull g = true)
    (x y : Nat) (hy : y < GRID_ROWS) : clearRows g x y = g x y := by
  have hr := (noRowFull_iff g).mp h y hy
  simp [clearRows, hr]

lemma colFull_clearRows_of_noRowFull (g : Grid) (h : noRowFull g = true)
    (x : Nat) : colFull (clearRows g) x = colFull g x := by
  unfold colFull
  apply all_congr_mem
  intro y hy
  rw [List.mem_range] at hy
  rw [clearRows_eq_of_noRowFull g h x y hy]

/-- When no row and no column of `g` is full, `clear_full_lines` clears
nothing. -/
lemma clear_count_zero (g : Grid) (hr : noRowFull g = true)
    (hc : noColFull g = true) : (clear_full_lines g).1 = 0 := by
  have h1 : rows_to_clear g = [] := by
    rw [rows_to_clear, List.filter_eq_nil_iff]
    intro y hy
    rw [List.mem_range] at hy
    simp [(noRowFull_iff g).mp hr y hy]
  have h2 : cols_to_clear (clearRows g) = [] := by
    rw [cols_to_clear, List.filter_eq_nil_iff]
    intro x hx
    rw [List.mem_range] at hx
    rw [colFull_clearRows_of_noRowFull g hr x]
    simp [(noColFull_iff g).mp hc x hx]
  simp [clear_full_lines, h1, h2]

/-- When no row and no column of `g` is full, `clear_full_lines` leaves
every real cell unchanged. -/
lemma clear_grid_frame (g : Grid) (hr : noRowFull g = true)
    (hc : noColFull g = true) (x y : Nat) (hx : x < GRID_COLS)
    (hy : y < GRID_ROWS) : (clear_full_lines g).2 x y = g x y := by
  have h0 := clear_count_zero g hr hc
  have hres : (clear_full_lines g).2 = clearCols (clearRows g) := by
    simp only [clear_full_lines] at h0 ⊢
    simp [h0]
  rw [hres]
  have hcx : colFull (clearRows g) x = false := by
    rw [colFull_clearRows_of_noRowFull g hr x]
    exact (noColFull_iff g).mp hc x hx
  simp only [clearCols, hcx]
  simp [clearRows_eq_of_noRowFull g hr x y hy]

/-- A predicate holding at exactly one point `a < n` is satisfied by
exactly one element of `range n`. -/
lemma length_filter_range_eq_one (p : Nat → Bool) (n a : Nat) (ha : a < n)
    (hpa : p a = true) (hothers : ∀ y < n, y ≠ a → p y = false) :
    ((List.range n).filter p).length = 1 := by
  induction n with
  | zero => omega
  | succ m ih =>
    rw [List.range_succ, List.filter_append, List.length_append]
    rcases Nat.lt_or_ge a m with hlt | hge
    · have hm : p m = false := hothers m (Nat.lt_succ_self m) (by omega)
      have h2 : (List.filter p [m]).length = 0 := by simp [hm]
      rw [h2, ih hlt (fun y hy hne => hothers y (by omega) hne)]
    · have ham : a = m := by omega
      subst ham
      have h1 : (List.range a).filter p = [] := by
        rw [List.filter_eq_nil_iff]
        intro y hy
        rw [List.mem_range] at hy
        simp [hothers y (by omega) (by omega)]
      rw [h1]
      simp [hpa]

lemma map_getD_range (l : List Nat) :
    (List.range l.length).map (fun i => l.getD i 0) = l := by
  apply List.ext_getElem
  · simp
  · intro n h1 h2
    simp only [List.getElem_map, List.getElem_range]
    exact List.getD_eq_getElem l 0 h2

lemma colList_collapse (g : Grid) (x : Nat) :
    colList (collapse g) x = newcol g x := by
  have hlen := length_newcol g x
  show (List.range GRID_ROWS).map (fun y => (newcol g x).getD y 0) = newcol g x
  rw [← hlen]
  exact map_getD_range _

lemma filter_replicate_zero (n : Nat) :
    (List.replicate n (0 : Nat)).filter (fun v => v != 0) = [] := by
  induction n with
  | zero => rfl
  | succ m ih => simp [List.replicate_succ, ih]

lemma filter_newcol (g : Grid) (x : Nat) :
    (newcol g x).filter (fun v => v != 0)
      = (colList g x).filter (fun v => v != 0) := by
  simp only [newcol, List.filter_append, filter_replicate_zero, List.nil_append]
  rw [List.filter_filter]
  simp only [Bool.and_self]

/-! ## Claim theorems -/

/-- C1 (counterexample): `crossGrid` — reachable by one placement of the
1-cell piece at `(0, 0)` on `preCross` — has exactly one full row and
exactly one full column, intersecting at `(0, 0)`; yet `clear_full_lines`
returns 1, not 2: the column scan runs after the full row was zeroed, so
the column is no longer full. -/
theorem clear_full_lines_cross_not_two :
    (∀ x < GRID_COLS, ∀ y < GRID_ROWS,
        crossGrid x y = writePiece preCross [[1]] 0 0 1 x y)
      ∧ rowFull crossGrid 0 = true ∧ colFull crossGrid 0 = true
      ∧ (∀ y < GRID_ROWS, y ≠ 0 → rowFull crossGrid y = false)
      ∧ (∀ x < GRID_COLS, x ≠ 0 → colFull crossGrid x = false)
      ∧ (clear_full_lines crossGrid).1 ≠ 2 := by
  decide

/-- C1 (amended): row fullness is evaluated against the pre-clear
snapshot, but column fullness is evaluated only after the full rows were
zeroed. On a board with exactly one full row and exactly one full column
(necessarily intersecting), `clear_full_lines` therefore returns 1: the
row is counted, the column is not. -/
theorem clear_full_lines_unique_cross_eq_one (g : Grid) (x0 y0 : Nat)
    (hx0 : x0 < GRID_COLS) (hy0 : y0 < GRID_ROWS)
    (hrow : rowFull g y0 = true)
    (hrowOnly : ∀ y < GRID_ROWS, y ≠ y0 → rowFull g y = false)
    (hcol : colFull g x0 = true)
    (hcolOnly : ∀ x < GRID_COLS, x ≠ x0 → colFull g x = false) :
    (clear_full_lines g).1 = 1 := by
  have h1 : (rows_to_clear g).length = 1 :=
    length_filter_range_eq_one _ GRID_ROWS y0 hy0 hrow hrowOnly
  have h2 : cols_to_clear (clearRows g) = [] := by
    rw [cols_to_clear, List.filter_eq_nil_iff]
    intro x _
    intro hfull
    have hz : clearRows g x y0 = 0 := by simp [clearRows, hrow]
    exact ((colFull_iff _ x).mp hfull y0 hy0) hz
  simp [clear_full_lines, h1, h2]

/-- C1 (witness): the amended theorem evaluated at `crossGrid` with the
full row 0 and full column 0. -/
theorem clear_full_lines_unique_cross_eq_one_witness :
    (0 < GRID_COLS ∧ 0 < GRID_ROWS ∧ rowFull crossGrid 0 = true
      ∧ (∀ y < GRID_ROWS, y ≠ 0 → rowFull crossGrid y = false)
      ∧ colFull crossGrid 0 = true
      ∧ (∀ x < GRID_COLS, x ≠ 0 → colFull crossGrid x = false))
    ∧ (clear_full_lines crossGrid).1 = 1 :=
  ⟨by decide,
   clear_full_lines_unique_cross_eq_one crossGrid 0 0 (by decide) (by decide)
     (by decide) (by decide) (by decide) (by decide)⟩

/-- C2 (counterexample): on `gravGrid`, `clear_full_lines` clears one
line (row 0), but the gravity collapse drops one remaining cell of every
column into the bottom row, so row 9 of the resulting grid is full. -/
theorem clear_full_lines_row_full_after :
    (clear_full_lines gravGrid).1 = 1
      ∧ rowFull (clear_full_lines gravGrid).2 9 = true
      ∧ noRowFull (clear_full_lines gravGrid).2 = false := by
  decide

/-- C2 (amended): immediately after `clear_full_lines` returns, no column
of the grid is full; a row, however, can be full, because the gravity
collapse can compact the surviving cells of every column into the bottom
row. -/
theorem clear_full_lines_no_full_column (g : Grid) :
    noColFull (clear_full_lines g).2 = true :=
  noColFull_clear_full_lines g

/-- C3 (counterexample): on `gravGrid` the first `clear_full_lines` call
leaves row 9 full (gravity), so a second call with no placement in
between clears that row and returns 1, not 0. -/
theorem clear_full_lines_twice_nonzero :
    (clear_full_lines (clear_full_lines gravGrid).2).1 = 1
      ∧ (clear_full_lines (clear_full_lines gravGrid).2).1 ≠ 0 := by
  decide

/-- C3 (amended): calling `clear_full_lines` twice in a row with no
placement in between yields 0 from the second call, provided the first
call left no full row (the gravity collapse of the first call can create
a full row, which the second call would clear). No full column can
survive the first call, so the proviso on rows is the only one needed. -/
theorem clear_full_lines_second_call_zero (g : Grid)
    (h : noRowFull (clear_full_lines g).2 = true) :
    (clear_full_lines (clear_full_lines g).2).1 = 0 :=
  clear_count_zero _ h (noColFull_clear_full_lines g)

/-- C3 (witness): the amended theorem evaluated at the empty board. -/
theorem clear_full_lines_second_call_zero_witness :
    noRowFull (clear_full_lines zeroGrid).2 = true
      ∧ (clear_full_lines (clear_full_lines zeroGrid).2).1 = 0 :=
  ⟨by decide, clear_full_lines_second_call_zero zeroGrid (by decide)⟩

/-- C9: the gravity collapse of `clear_full_lines` preserves, for every
column, the list of nonzero cells of that column (same cells, same
relative order), and in particular their count: cells are only moved,
never created or destroyed. -/
theorem collapse_preserves_column_cells (g : Grid) (x : Nat) :
    (colList (collapse g) x).filter (fun v => v != 0)
        = (colList g x).filter (fun v => v != 0)
      ∧ ((colList (collapse g) x).filter (fun v => v != 0)).length
        = ((colList g x).filter (fun v => v != 0)).length := by
  have h : (colList (collapse g) x).filter (fun v => v != 0)
      = (colList g x).filter (fun v => v != 0) := by
    rw [colList_collapse]
    exact filter_newcol g x
  exact ⟨h, congrArg List.length h⟩

/-- C10: when no row and no column of the board is full,
`clear_full_lines` returns 0 and leaves every cell of the grid unchanged
(the gravity collapse is skipped when nothing was cleared). -/
theorem clear_full_lines_noop_when_no_full_line (g : Grid)
    (hr : noRowFull g = true) (hc : noColFull g = true) :
    (clear_full_lines g).1 = 0
      ∧ ∀ x < GRID_COLS, ∀ y < GRID_ROWS, (clear_full_lines g).2 x y = g x y :=
  ⟨clear_count_zero g hr hc,
   fun x hx y hy => clear_grid_frame g hr hc x y hx hy⟩

/-- C10 (witness): the theorem evaluated at the empty board. -/
theorem clear_full_lines_noop_when_no_full_line_witness :
    (noRowFull zeroGrid = true ∧ noColFull zeroGrid = true)
      ∧ ((clear_full_lines zeroGrid).1 = 0
        ∧ ∀ x < GRID_COLS, ∀ y < GRID_ROWS,
            (clear_full_lines zeroGrid).2 x y = zeroGrid x y) :=
  ⟨by decide, clear_full_lines_noop_when_no_full_line zeroGrid (by decide) (by decide)⟩

/-- C4: `can_place_piece` returns true exactly when the shape's bounding
box lies fully within the grid bounds at the integer anchor and every
occupied cell of the shape maps to a board cell whose value is 0 (the
embedding is a pure function, so the grid is never mutated). -/
theorem can_place_piece_iff_spec (g : Grid) (piece : Piece)
    (drop_x drop_y : Int) :
    can_place_piece g piece drop_x drop_y = true
      ↔ canPlaceSpec g piece drop_x drop_y := by
  simp only [can_place_piece, canPlaceSpec]
  split
  · rename_i hguard
    simp only [Bool.or_eq_true, decide_eq_true_eq] at hguard
    constructor
    · intro h
      exact absurd h (by simp)
    · rintro ⟨⟨h1, h2, h3, h4⟩, -⟩
      omega
  · rename_i hguard
    simp only [Bool.or_eq_true, decide_eq_true_eq, not_or, not_lt] at hguard
    have g1 := hguard.1.1.1
    have g2 := hguard.1.1.2
    have g3 := hguard.1.2
    have g4 := hguard.2
    constructor
    · intro h
      refine ⟨⟨by omega, by omega, by omega, by omega⟩, ?_⟩
      intro px hpx py hpy hocc
      rw [List.all_eq_true] at h
      have h' := h px (by rw [List.mem_range]; exact hpx)
      rw [List.all_eq_true] at h'
      have h'' := h' py (by rw [List.mem_range]; exact hpy)
      rw [if_pos (by simpa using hocc)] at h''
      simpa using h''
    · rintro ⟨-, h⟩
      rw [List.all_eq_true]
      intro px hpx
      rw [List.all_eq_true]
      intro py hpy
      rw [List.mem_range] at hpx hpy
      split
      · rename_i hocc
        simp only [bne_iff_ne, ne_eq] at hocc
        simpa using h px hpx py hpy hocc
      · rfl

/-- A successful `can_place_piece` implies the bounding box is inside the
grid. -/
lemma can_place_piece_in_bounds (g : Grid) (piece : Piece)
    (drop_x drop_y : Int) (h : can_place_piece g piece drop_x drop_y = true) :
    0 ≤ drop_x ∧ 0 ≤ drop_y
      ∧ drop_x + ((piece.headD []).length : Int) ≤ (GRID_COLS : Int)
      ∧ drop_y + (piece.length : Int) ≤ (GRID_ROWS : Int) := by
  simp only [can_place_piece] at h
  split at h
  · exact absurd h (by simp)
  · rename_i hguard
    simp only [Bool.or_eq_true, decide_eq_true_eq, not_or, not_lt] at hguard
    exact ⟨hguard.1.1.1, hguard.1.1.2, hguard.1.2, hguard.2⟩

/-- C5: `any_move_exists` returns true exactly when some piece of the
pending set with `used = false` admits an anchor `(gx, gy)` with
`gx + width ≤ GRID_COLS` and `gy + height ≤ GRID_ROWS` at which
`can_place_piece` succeeds; used pieces never contribute. -/
theorem any_move_exists_iff (s : Game) :
    any_move_exists s = true
      ↔ ∃ i < 3, s.used.getD i false = false
          ∧ ∃ gx gy : Nat,
              gx + ((s.pieces.getD i []).headD []).length ≤ GRID_COLS
              ∧ gy + (s.pieces.getD i []).length ≤ GRID_ROWS
              ∧ can_place_piece s.grid (s.pieces.getD i [])
                  (gx : Int) (gy : Int) = true := by
  rw [any_move_exists, List.any_eq_true]
  constructor
  · rintro ⟨i, hi, hvalid⟩
    rw [List.mem_range] at hi
    simp only [any_valid_for_index] at hvalid
    rcases hu : s.used.getD i false with _ | _
    · rw [hu] at hvalid
      simp only [Bool.false_eq_true, if_false, List.any_eq_true,
        List.mem_range] at hvalid
      obtain ⟨gx, hgx, gy, hgy, hcan⟩ := hvalid
      refine ⟨i, hi, hu, gx, gy, ?_, ?_, hcan⟩
      · have hb := can_place_piece_in_bounds _ _ _ _ hcan
        omega
      · have hb := can_place_piece_in_bounds _ _ _ _ hcan
        omega
    · rw [hu] at hvalid
      simp at hvalid
  · rintro ⟨i, hi, hu, gx, gy, hbx, hby, hcan⟩
    refine ⟨i, by rw [List.mem_range]; exact hi, ?_⟩
    simp only [any_valid_for_index, hu, Bool.false_eq_true, if_false,
      List.any_eq_true, List.mem_range]
    refine ⟨gx, by omega, gy, by omega, hcan⟩

/-- C6: while the game-over flag is set, a click — the only way a
placement is ever attempted in the program — is ignored by the play-state
handler: no piece is placed and every component of the state (grid,
score, pieces, used flags, game_over) is unchanged. -/
theorem handle_click_game_over_unchanged (s : Game) (newPieces : List Piece)
    (newColors : List Nat) (cell : Option (Nat × Nat))
    (h : s.game_over = true) :
    handle_click s newPieces newColors cell = s := by
  simp [handle_click, h]

/-- C6 (witness): the theorem evaluated at a concrete finished game and a
click on cell `(0, 0)`. -/
theorem handle_click_game_over_unchanged_witness :
    wGameOver.game_over = true
      ∧ handle_click wGameOver [] [] (some (0, 0)) = wGameOver :=
  ⟨rfl, handle_click_game_over_unchanged wGameOver [] [] (some (0, 0)) rfl⟩

/-- C7: `place_piece` returns `false` and leaves the whole state (grid,
score, pieces, used flags, everything) unchanged when the index is out of
range or the piece is already used, or when `can_place_piece` fails at
the requested anchor. -/
theorem place_piece_reject_no_change (s : Game) (newPieces : List Piece)
    (newColors : List Nat) (index gx gy : Int)
    (h : index < 0 ∨ 2 < index ∨ s.used.getD index.toNat false = true
      ∨ can_place_piece s.grid (s.pieces.getD index.toNat []) gx gy = false) :
    place_piece s newPieces newColors index gx gy = (false, s) := by
  simp only [place_piece]
  split
  · rfl
  · rename_i hcond
    split
    · rfl
    · rename_i hcan
      exfalso
      rcases h with h | h | h | h
      · exact hcond (by simp [h])
      · exact hcond (by simp [h])
      · exact hcond (by rw [h]; simp)
      · exact hcan (by rw [h]; rfl)

/-- C7 (witness): the theorem evaluated at index -1 on a concrete
state. -/
theorem place_piece_reject_no_change_witness :
    (-1 : Int) < 0
      ∧ place_piece wGame [] [] (-1) 0 0 = (false, wGame) :=
  ⟨by decide,
   place_piece_reject_no_change wGame [] [] (-1) 0 0 (Or.inl (by decide))⟩

/-- C8: a successful `place_piece` reports success and increases the
score by exactly `placed_blocks × SCORE_PER_BLOCK`, plus
`ROWCOL_CLEAR_BONUS × clears` when `clear_full_lines` cleared
`clears > 0` lines on the post-write grid; with `SCORE_PER_BLOCK = 10`, a
4-cell piece contributes exactly 40 points before any clear bonus. -/
theorem place_piece_score_formula (s : Game) (newPieces : List Piece)
    (newColors : List Nat) (index gx gy : Int)
    (h0 : 0 ≤ index) (h2 : index ≤ 2)
    (hu : s.used.getD index.toNat false = false)
    (hc : can_place_piece s.grid (s.pieces.getD index.toNat []) gx gy = true) :
    (place_piece s newPieces newColors index gx gy).1 = true
      ∧ (place_piece s newPieces newColors index gx gy).2.score
        = s.score
          + placed_blocks (s.pieces.getD index.toNat []) * SCORE_PER_BLOCK
          + (if 0 < (clear_full_lines (writePiece s.grid
                  (s.pieces.getD index.toNat []) gx.toNat gy.toNat
                  (s.piece_colors.getD index.toNat 0 + 1))).1
             then ROWCOL_CLEAR_BONUS * (clear_full_lines (writePiece s.grid
                  (s.pieces.getD index.toNat []) gx.toNat gy.toNat
                  (s.piece_colors.getD index.toNat 0 + 1))).1
             else 0) := by
  constructor
  · simp only [place_piece]
    split
    · rename_i hcond
      exfalso
      rw [hu] at hcond
      simp at hcond
      omega
    · split
      · rename_i hcan
        exfalso
        rw [hc] at hcan
        exact absurd hcan (by simp)
      · rfl
  · simp only [place_piece]
    split
    · rename_i hcond
      exfalso
      rw [hu] at hcond
      simp at hcond
      omega
    · split
      · rename_i hcan
        exfalso
        rw [hc] at hcan
        exact absurd hcan (by simp)
      · repeat' split
        all_goals simp [spawn_new_triplet]

/-- C8 (witness): placing the 4-cell 2x2 square at `(0, 0)` on the empty
board succeeds, clears nothing, and raises the score from 0 to 40. -/
theorem place_piece_score_formula_witness :
    ((0 : Int) ≤ 0 ∧ (0 : Int) ≤ 2
      ∧ wGame.used.getD (0 : Int).toNat false = false
      ∧ can_place_piece wGame.grid (wGame.pieces.getD (0 : Int).toNat []) 0 0
          = true)
      ∧ ((place_piece wGame [] [] 0 0 0).1 = true
        ∧ (place_piece wGame [] [] 0 0 0).2.score
          = wGame.score
            + placed_blocks (wGame.pieces.getD (0 : Int).toNat [])
              * SCORE_PER_BLOCK
            + (if 0 < (clear_full_lines (writePiece wGame.grid
                    (wGame.pieces.getD (0 : Int).toNat [])
                    (0 : Int).toNat (0 : Int).toNat
                    (wGame.piece_colors.getD (0 : Int).toNat 0 + 1))).1
               then ROWCOL_CLEAR_BONUS * (clear_full_lines (writePiece
                    wGame.grid (wGame.pieces.getD (0 : Int).toNat [])
                    (0 : Int).toNat (0 : Int).toNat
                    (wGame.piece_colors.getD (0 : Int).toNat 0 + 1))).1
               else 0)) :=
  ⟨⟨by decide, by decide, by decide, by decide⟩,
   place_piece_score_formula wGame [] [] 0 0 0 (by decide) (by decide)
     (by decide) (by decide)⟩

end BlockPuzzle
